import Mathlib

/-!
Verification of the price-tracking pipeline (`src/main.py`, `src/config.py`).

The core components are shallowly embedded over exact rationals:
* the price-text normalizer `extract_price_from_text` (main.py lines 68-99);
* the per-site scraper result and the observation collector
  `get_all_current_prices` (lines 101-144, 200-229);
* the history ledger: a value-level view (records with rational prices,
  for claims about flags and the evaluator) and a store-level view (raw
  CSV rows, for claims about degraded files), both mirroring
  `get_historical_data` (lines 231-288) and `save_price_data`
  (lines 290-343);
* the deal evaluator `check_for_deals` (lines 396-433) and the session
  orchestrator `main` (lines 483-524).

Python floats are modelled as `ℚ`; every price the program manipulates is
a decimal numeral parsed from text or a product with 0.9, and no claim's
input sits near a binary-rounding boundary, so rational arithmetic is
faithful for every statement below.  `float('inf')` (the "no data"
sentinel of the history statistics) is modelled as `none : Option ℚ`.
-/

namespace PriceBot

/-! ## Price text normalizer (main.py lines 68-99) -/

/-- Bool test: the first argument is an initial segment of the second.
Used to model Python's `str.replace` scan. -/
def startsWith : List Char → List Char → Bool
  | [], _ => true
  | _ :: _, [] => false
  | p :: ps, c :: cs => p = c && startsWith ps cs

/-- Left-to-right, non-overlapping removal of every occurrence of `pat`,
modelling Python's `text.replace(pat, '')`.  Structural recursion on a
fuel argument equal to the text length (each step consumes at least one
character when `pat` is non-empty, so the fuel never runs out). -/
def removeAllAux (pat : List Char) : Nat → List Char → List Char
  | 0, s => s
  | _ + 1, [] => []
  | fuel + 1, c :: rest =>
    if pat ≠ [] ∧ startsWith pat (c :: rest) then
      removeAllAux pat fuel ((c :: rest).drop pat.length)
    else
      c :: removeAllAux pat fuel rest

def removeAll (pat s : List Char) : List Char := removeAllAux pat s.length s

/-- Line 77: `price_text.replace('₹','').replace(',','').replace('Rs','').replace('INR','')`. -/
def cleanText (s : List Char) : List Char :=
  removeAll "INR".data (removeAll "Rs".data (removeAll ",".data (removeAll "₹".data s)))

/-- The first match of the pattern `\d+\.?\d*` (line 80 takes
`re.findall(...)[0]`): a maximal digit run, optionally followed by one
dot and a maximal digit run. -/
def firstToken : List Char → Option (List Char)
  | [] => none
  | c :: rest =>
    if c.isDigit then
      let ds := List.takeWhile Char.isDigit (c :: rest)
      let tail := List.dropWhile Char.isDigit (c :: rest)
      match tail with
      | '.' :: r2 => some (ds ++ '.' :: List.takeWhile Char.isDigit r2)
      | _ => some ds
    else firstToken rest

def digitsVal (ds : List Char) : Nat :=
  ds.foldl (fun n c => 10 * n + (c.toNat - 48)) 0

/-- Value of a token matched by `\d+\.?\d*` (Python `float(...)` on it;
such a token is always a valid float literal, so the `ValueError` branch
of lines 94-96 is unreachable). -/
def tokenVal (t : List Char) : ℚ :=
  let ip := List.takeWhile Char.isDigit t
  let rest := List.dropWhile Char.isDigit t
  let fp : List Char :=
    match rest with
    | '.' :: r => List.takeWhile Char.isDigit r
    | _ => []
  (digitsVal ip : ℚ) + (digitsVal fp : ℚ) / (10 : ℚ) ^ fp.length

/-- `extract_price_from_text` (lines 68-99).  Python's
`if not price_text:` is the empty-string test (a `None` argument behaves
the same and is not modelled separately).  The sanity-check branch of
lines 88-92 returns the price on both sides (out-of-range values are
logged but still returned), which the embedding keeps explicit. -/
def extract_price_from_text (price_text : String) : Option ℚ :=
  if price_text = "" then none
  else
    match firstToken (cleanText price_text.data) with
    | some tok =>
      let price := tokenVal tok
      if 5000 ≤ price ∧ price ≤ 15000 then some price
      else some price
    | none => none

/-! ## Scraper and observation collector (lines 101-144, 200-229) -/

/-- `scrape_price_static` (lines 101-144) at the text boundary: the
located element's text (or `none` for a missing element / network
error) is the input; the function returns the extracted price only when
it is truthy (`if price:` on line 131 — `None` and `0.0` are both
falsy).  `scrape_price_dynamic` (lines 146-198) is identical at this
boundary. -/
def scrape_price_static (located : Option String) : Option ℚ :=
  match located with
  | none => none
  | some text =>
    match extract_price_from_text text with
    | some price => if price = 0 then none else some price
    | none => none

/-- `get_all_current_prices` (lines 200-229): loop over the configured
sites, adding `(site, price)` to the result only when the scrape
produced a truthy price (`if price:` on line 218).  The fetch boundary
is the list of `(site name, located text)` pairs; the politeness sleep
has no effect on the returned mapping. -/
def get_all_current_prices (fetches : List (String × Option String)) :
    List (String × ℚ) :=
  fetches.foldl
    (fun acc f =>
      match scrape_price_static f.2 with
      | some price => acc ++ [(f.1, price)]
      | none => acc)
    []

/-! ## History ledger, value-level view (lines 231-327)

The value-level view keeps each record's price as the rational the
program computed; the CSV round trip (Python renders a float with `str`
and re-reads it with `float`, which round-trips exactly) is abstracted
as the identity. -/

structure LedgerRecord where
  timestamp : String
  site : String
  price : ℚ
  is_new_low : Bool
  below_threshold : Bool
deriving DecidableEq, Repr

def ledgerPrices (ledger : List LedgerRecord) : List ℚ :=
  ledger.map (·.price)

/-- `min(prices) if prices else float('inf')` (line 275): `none` models
the `float('inf')` "no data" sentinel. -/
def lowestEver : List ℚ → Option ℚ
  | [] => none
  | p :: ps => some (ps.foldl min p)

/-- `price < lowest_ever` under the `float('inf')` sentinel: every price
is below infinity. -/
def ltLowest (price : ℚ) : Option ℚ → Bool
  | none => true
  | some l => decide (price < l)

/-- `save_price_data` (lines 290-327), value-level: the historical
statistics are read once, before the write loop (line 299), and every
record of the batch gets its `is_new_low` flag from that one baseline;
`below_threshold` compares against the configured threshold
(line 317). -/
def save_price_data_records (prior : List LedgerRecord) (now : String)
    (current : List (String × ℚ)) (threshold : ℚ) : List LedgerRecord :=
  let baseline := lowestEver (ledgerPrices prior)
  current.foldl
    (fun acc sp =>
      acc ++ [{ timestamp := now, site := sp.1, price := sp.2,
                is_new_low := ltLowest sp.2 baseline,
                below_threshold := decide (sp.2 ≤ threshold) }])
    prior

/-! ## Deal evaluator (lines 396-433) -/

/-- The three alert reasons appended on lines 409, 413 and 418; the
constructors stand for the strings
`"At/below your target of ₹{...}"`, `"New historical low!"` and
`"Significant price drop detected"`. -/
inductive Reason
  | atBelowTarget
  | newHistoricalLow
  | significantDrop
deriving DecidableEq, Repr

/-- The reason list built for one site (lines 404-418): the three rules
run independently, in source order.  Rule 3 is guarded by
`lowest_ever != float('inf')` (line 416); rule 2 is not. -/
def dealReasons (price threshold : ℚ) (lowest_ever : Option ℚ) : List Reason :=
  (if price ≤ threshold then [Reason.atBelowTarget] else []) ++
  (if ltLowest price lowest_ever then [Reason.newHistoricalLow] else []) ++
  (match lowest_ever with
   | none => []
   | some l => if price < l * (9 / 10) then [Reason.significantDrop] else [])

/-- `check_for_deals` (lines 396-433): reads the historical statistics
from the ledger it is given, then emits one alert (site, reasons) per
site whose reason list is non-empty.  The returned list stands for the
alerts sent (`alerts_sent` is its length). -/
def check_for_deals (ledger : List LedgerRecord)
    (current : List (String × ℚ)) (threshold : ℚ) :
    List (String × List Reason) :=
  let lowest := lowestEver (ledgerPrices ledger)
  current.foldl
    (fun acc sp =>
      let rs := dealReasons sp.2 threshold lowest
      if rs = [] then acc else acc ++ [(sp.1, rs)])
    []

/-- `main` (lines 483-524) after collection, on the success path:
abort when no price was retrieved (line 497), otherwise persist the
batch (line 502) and only then evaluate deals against the ledger as it
stands after the append (line 505 — `check_for_deals` re-reads the
history file, which now holds this session's records). -/
def runSession (prior : List LedgerRecord) (now : String)
    (current : List (String × ℚ)) (threshold : ℚ) :
    List (String × List Reason) :=
  if current = [] then []
  else
    check_for_deals (save_price_data_records prior now current threshold)
      current threshold

/-! ## History ledger, store-level view (lines 231-343)

The backing CSV file is modelled as `Option (List (List String))`:
`none` is an absent file, `some []` a file that exists with size 0, and
`some (header :: rows)` a file whose first line holds the column names
(`csv.DictReader` reads the first row as `fieldnames`). -/

/-- Line 302. -/
def fieldnames : List String :=
  ["timestamp", "site", "price", "is_new_low", "below_threshold"]

/-- Line 252. -/
def required_columns : List String := ["timestamp", "site", "price"]

/-- `DictReader` row access: the value under a column name is the row
cell at that column's index in the header, absent when the row is too
short (Python yields `None` there) or the column does not exist. -/
def rowGet (header row : List String) (col : String) : Option String :=
  match header.findIdx? (· = col) with
  | some i => row[i]?
  | none => none

/-- Python `float(...)` on a cell (line 270), restricted to the plain
decimal forms the program itself writes: optional sign, digits, optional
dot and fraction digits.  Exponent/`inf`/`nan` forms never occur in a
ledger this program maintains and are not modelled. -/
def parseFloat? (s : String) : Option ℚ :=
  let p : Bool × List Char :=
    match s.data with
    | '-' :: r => (true, r)
    | '+' :: r => (false, r)
    | cs => (false, cs)
  let ip := List.takeWhile Char.isDigit p.2
  let rest := List.dropWhile Char.isDigit p.2
  match rest with
  | [] =>
    if ip = [] then none
    else some (cond p.1 (-(digitsVal ip : ℚ)) (digitsVal ip))
  | '.' :: r =>
    let fp := List.takeWhile Char.isDigit r
    if List.dropWhile Char.isDigit r ≠ [] then none
    else if ip = [] ∧ fp = [] then none
    else
      let v := (digitsVal ip : ℚ) + (digitsVal fp : ℚ) / (10 : ℚ) ^ fp.length
      some (cond p.1 (-v) v)
  | _ => none

/-- The statistics `get_historical_data` returns: `lowest_ever` is
`none` for the `float('inf')` "no data" sentinel, `records` the data
rows.  (`total_checks` of line 280 is `records.length`.) -/
structure HistoricalStats where
  lowest_ever : Option ℚ
  records : List (List String)
deriving DecidableEq, Repr

/-- `get_historical_data` (lines 231-288).  A missing or zero-size file
(line 240), a contentless reader (line 248), missing required columns
(lines 252-258) and an empty record list (line 262) all yield the
sentinel; otherwise the lowest price is the minimum over the rows whose
`price` cell is non-empty and parses (lines 266-275).  The function is
total: every degraded shape is a returned value, never an error
(the source catches `FileNotFoundError` and any other exception on
lines 283-288 and returns the sentinel). -/
def get_historical_data (store : Option (List (List String))) :
    HistoricalStats :=
  match store with
  | none => ⟨none, []⟩
  | some [] => ⟨none, []⟩
  | some (header :: rows) =>
    if required_columns.all (fun c => header.contains c) then
      if rows = [] then ⟨none, []⟩
      else
        let prices := rows.filterMap (fun r =>
          match rowGet header r "price" with
          | some v => if v = "" then none else parseFloat? v
          | none => none)
        ⟨lowestEver prices, rows⟩
    else ⟨none, []⟩

/-- Python `str` of a bool, as `csv.DictWriter` renders the flag cells. -/
def boolStr : Bool → String
  | true => "True"
  | false => "False"

/-- The text the `price` cell gets.  The source writes Python's float
string; no theorem below depends on the rendered text (only on row
structure), so the exact decimal formatting is abstracted by the
rational's own rendering. -/
def ratStr (q : ℚ) : String := toString q

/-- One row written by the loop of lines 315-325. -/
def recordRow (now site : String) (price : ℚ) (low below : Bool) :
    List String :=
  [now, site, ratStr price, boolStr low, boolStr below]

/-- `save_price_data` (lines 290-327), store-level, on the path where
the write succeeds: the historical statistics are read once before the
write (line 299); the file is opened in append mode, and a header row is
written only when the file is absent or has size 0 (lines 305-312); then
one row per observation is appended (lines 315-325).  The header-repair
block of lines 329-343 runs only when an exception was raised, so it
does not appear on this path. -/
def save_price_data (store : Option (List (List String))) (now : String)
    (current : List (String × ℚ)) (threshold : ℚ) :
    Option (List (List String)) :=
  let baseline := (get_historical_data store).lowest_ever
  let newRows := current.map (fun sp =>
    recordRow now sp.1 sp.2 (ltLowest sp.2 baseline) (decide (sp.2 ≤ threshold)))
  match store with
  | none => some (fieldnames :: newRows)
  | some [] => some (fieldnames :: newRows)
  | some (l :: ls) => some ((l :: ls) ++ newRows)

/-- Bool test: the first list occurs as a contiguous run of the second. -/
def containsSub (pat : List Char) : List Char → Bool
  | [] => startsWith pat []
  | c :: rest => startsWith pat (c :: rest) || containsSub pat rest

/-- The repair path's header test (line 336): the first line of the file
is a recognizable header when the text `timestamp` occurs in it. -/
def headerRecognizable (row : List String) : Bool :=
  containsSub "timestamp".data (String.intercalate "," row).data

/-- The degraded store shapes of the resilience claim: absent, empty, or
present with a header missing one of the required columns. -/
def storeDegraded : Option (List (List String)) → Bool
  | none => true
  | some [] => true
  | some (header :: _) => !(required_columns.all (fun c => header.contains c))

/-! ## Helper lemmas -/

lemma foldl_append_eq_map {α β : Type} (f : α → β) (l : List α) :
    ∀ acc : List β, l.foldl (fun a x => a ++ [f x]) acc = acc ++ l.map f := by
  induction l with
  | nil => intro acc; simp
  | cons x xs ih =>
    intro acc
    simp only [List.foldl_cons, List.map_cons]
    rw [ih]
    simp

/-- The write loop appends, to the prior ledger, exactly one record per
observation, every one flagged against the pre-batch baseline. -/
lemma save_records_eq (prior : List LedgerRecord) (now : String)
    (current : List (String × ℚ)) (threshold : ℚ) :
    save_price_data_records prior now current threshold =
      prior ++ current.map (fun sp =>
        { timestamp := now, site := sp.1, price := sp.2,
          is_new_low := ltLowest sp.2 (lowestEver (ledgerPrices prior)),
          below_threshold := decide (sp.2 ≤ threshold) }) := by
  unfold save_price_data_records
  exact foldl_append_eq_map _ current prior

lemma ledgerPrices_save (prior : List LedgerRecord) (now : String)
    (current : List (String × ℚ)) (threshold : ℚ) :
    ledgerPrices (save_price_data_records prior now current threshold) =
      ledgerPrices prior ++ current.map Prod.snd := by
  rw [save_records_eq]
  simp [ledgerPrices]

lemma get_all_current_prices_eq (fetches : List (String × Option String)) :
    get_all_current_prices fetches =
      fetches.filterMap (fun f =>
        (scrape_price_static f.2).map (fun p => (f.1, p))) := by
  suffices h : ∀ (l : List (String × Option String)) (acc : List (String × ℚ)),
      l.foldl (fun acc f =>
        match scrape_price_static f.2 with
        | some price => acc ++ [(f.1, price)]
        | none => acc) acc =
      acc ++ l.filterMap (fun f =>
        (scrape_price_static f.2).map (fun p => (f.1, p))) by
    simpa [get_all_current_prices] using h fetches []
  intro l
  induction l with
  | nil => intro acc; simp
  | cons x xs ih =>
    intro acc
    cases hx : scrape_price_static x.2 <;>
      simp [List.foldl_cons, List.filterMap_cons, hx, ih]

lemma check_for_deals_eq (ledger : List LedgerRecord)
    (current : List (String × ℚ)) (threshold : ℚ) :
    check_for_deals ledger current threshold =
      current.filterMap (fun sp =>
        let rs := dealReasons sp.2 threshold (lowestEver (ledgerPrices ledger))
        if rs = [] then none else some (sp.1, rs)) := by
  suffices h : ∀ (l : List (String × ℚ)) (acc : List (String × List Reason))
      (low : Option ℚ),
      l.foldl (fun acc sp =>
        let rs := dealReasons sp.2 threshold low
        if rs = [] then acc else acc ++ [(sp.1, rs)]) acc =
      acc ++ l.filterMap (fun sp =>
        let rs := dealReasons sp.2 threshold low
        if rs = [] then none else some (sp.1, rs)) by
    simpa [check_for_deals] using
      h current [] (lowestEver (ledgerPrices ledger))
  intro l
  induction l with
  | nil => intro acc low; simp
  | cons x xs ih =>
    intro acc low
    by_cases hx : dealReasons x.2 threshold low = [] <;>
      simp [List.foldl_cons, List.filterMap_cons, hx, ih]

lemma foldl_min_le (as : List ℚ) :
    ∀ a : ℚ, as.foldl min a ≤ a ∧ ∀ b ∈ as, as.foldl min a ≤ b := by
  induction as with
  | nil => intro a; simp
  | cons x xs ih =>
    intro a
    simp only [List.foldl_cons]
    refine ⟨le_trans (ih (min a x)).1 (min_le_left a x), ?_⟩
    intro b hb
    rcases List.mem_cons.mp hb with h | h
    · subst h
      exact le_trans (ih (min a b)).1 (min_le_right a b)
    · exact (ih (min a x)).2 b h

lemma lowestEver_le_of_mem {ps : List ℚ} {p : ℚ} (hp : p ∈ ps) :
    ∃ m, lowestEver ps = some m ∧ m ≤ p := by
  cases ps with
  | nil => cases hp
  | cons a as =>
    refine ⟨as.foldl min a, rfl, ?_⟩
    rcases List.mem_cons.mp hp with h | h
    · exact h ▸ (foldl_min_le as a).1
    · exact (foldl_min_le as a).2 p h

/-- Once the historical minimum includes a non-negative price `p`, the
evaluator can give `p` neither the "new historical low" reason nor the
"significant drop" reason. -/
lemma dealReasons_after {ps : List ℚ} {p : ℚ} (threshold : ℚ)
    (hp : p ∈ ps) (hp0 : 0 ≤ p) :
    dealReasons p threshold (lowestEver ps) =
      if p ≤ threshold then [Reason.atBelowTarget] else [] := by
  obtain ⟨m, hm, hmp⟩ := lowestEver_le_of_mem hp
  rw [hm]
  unfold dealReasons ltLowest
  have h2 : ¬ p < m := not_lt.mpr hmp
  have h3 : ¬ p < m * (9 / 10) := by
    rcases le_or_lt 0 m with h | h
    · nlinarith
    · nlinarith
  simp [h2, h3]

/-- A price the scraper hands back is never zero (`if price:` filters
`0.0` out). -/
lemma scrape_price_ne_zero {located : Option String} {q : ℚ}
    (h : scrape_price_static located = some q) : q ≠ 0 := by
  cases located with
  | none => simp [scrape_price_static] at h
  | some text =>
    simp only [scrape_price_static] at h
    cases hx : extract_price_from_text text with
    | none => rw [hx] at h; simp at h
    | some p =>
      rw [hx] at h
      have h' : (if p = 0 then none else some p : Option ℚ) = some q := h
      by_cases hz : p = 0
      · rw [if_pos hz] at h'; simp at h'
      · rw [if_neg hz] at h'
        simp only [Option.some_inj] at h'
        exact h' ▸ hz

/-- Evaluation helper: extraction on a non-empty text whose cleaned form
has a first numeric token. -/
lemma extract_eq_of {s : String} {tok : List Char} {q : ℚ}
    (hs : ¬ s = "") (htok : firstToken (cleanText s.data) = some tok)
    (hval : tokenVal tok = q) :
    extract_price_from_text s = some q := by
  unfold extract_price_from_text
  rw [if_neg hs, htok]
  simp only [hval, ite_self]

/-- Evaluation helper: extraction on a non-empty text with no numeric
token. -/
lemma extract_eq_none_of {s : String} (hs : ¬ s = "")
    (htok : firstToken (cleanText s.data) = none) :
    extract_price_from_text s = none := by
  unfold extract_price_from_text
  rw [if_neg hs, htok]

lemma tokenVal_8999 : tokenVal ['8', '9', '9', '9', '.', '0', '0'] = 8999 := by
  have h1 : List.takeWhile Char.isDigit ['8', '9', '9', '9', '.', '0', '0'] =
      ['8', '9', '9', '9'] := by decide
  have h2 : List.dropWhile Char.isDigit ['8', '9', '9', '9', '.', '0', '0'] =
      '.' :: ['0', '0'] := by decide
  have h3 : List.takeWhile Char.isDigit ['0', '0'] = ['0', '0'] := by decide
  have h4 : digitsVal ['8', '9', '9', '9'] = 8999 := by decide
  have h5 : digitsVal ['0', '0'] = 0 := by decide
  simp only [tokenVal, h1, h2, h3, h4, h5, List.length_cons, List.length_nil]
  norm_num

lemma tokenVal_499 : tokenVal ['4', '9', '9'] = 499 := by
  have h1 : List.takeWhile Char.isDigit ['4', '9', '9'] = ['4', '9', '9'] := by
    decide
  have h2 : List.dropWhile Char.isDigit ['4', '9', '9'] = [] := by decide
  have h4 : digitsVal ['4', '9', '9'] = 499 := by decide
  have h5 : digitsVal [] = 0 := by decide
  simp only [tokenVal, h1, h2, h4, h5, List.length_nil]
  norm_num

lemma tokenVal_zero : tokenVal ['0', '.', '0', '0'] = 0 := by
  have h1 : List.takeWhile Char.isDigit ['0', '.', '0', '0'] = ['0'] := by decide
  have h2 : List.dropWhile Char.isDigit ['0', '.', '0', '0'] =
      '.' :: ['0', '0'] := by decide
  have h3 : List.takeWhile Char.isDigit ['0', '0'] = ['0', '0'] := by decide
  have h4 : digitsVal ['0'] = 0 := by decide
  have h5 : digitsVal ['0', '0'] = 0 := by decide
  simp only [tokenVal, h1, h2, h3, h4, h5, List.length_cons, List.length_nil]
  norm_num

lemma extract_price_rupee8999 :
    extract_price_from_text "₹8,999.00" = some 8999 :=
  extract_eq_of (by decide) (by decide) tokenVal_8999

lemma extract_price_rupee499 :
    extract_price_from_text "₹499" = some 499 :=
  extract_eq_of (by decide) (by decide) tokenVal_499

lemma extract_price_rupee0 :
    extract_price_from_text "₹0.00" = some 0 :=
  extract_eq_of (by decide) (by decide) tokenVal_zero

lemma extract_price_499 :
    extract_price_from_text "499" = some 499 :=
  extract_eq_of (by decide) (by decide) tokenVal_499

/-! ## Claim theorems -/

/-- C2 counterexample: with threshold 7500, historical lowest 8000 and
price 7000, the reason list is not the claimed two-element list — since
7000 < 0.9 * 8000 = 7200 the "significant drop" rule also fires. -/
theorem claim_C2_counterexample :
    dealReasons 7000 7500 (some 8000) ≠
      [Reason.atBelowTarget, Reason.newHistoricalLow] := by
  have h : dealReasons 7000 7500 (some 8000) =
      [Reason.atBelowTarget, Reason.newHistoricalLow,
        Reason.significantDrop] := by
    norm_num [dealReasons, ltLowest]
  rw [h]
  decide

/-- C2 (amended): with threshold 7500, historical lowest 8000 and price
7000, the evaluator produces all three reasons, in rule order:
"at/below target", "new historical low" and "significant drop"
(7000 < 0.9 * 8000 = 7200). -/
theorem claim_C2_reason_list :
    dealReasons 7000 7500 (some 8000) =
      [Reason.atBelowTarget, Reason.newHistoricalLow,
        Reason.significantDrop] := by
  norm_num [dealReasons, ltLowest]

/-- C9 counterexample: with the "no data" sentinel (empty history), the
"new historical low" reason does fire — `price < float('inf')` holds for
every price, and rule 2 has no definedness guard. -/
theorem claim_C9_counterexample :
    Reason.newHistoricalLow ∈ dealReasons 7000 7500 none := by
  have h : dealReasons 7000 7500 none =
      [Reason.atBelowTarget, Reason.newHistoricalLow] := by
    norm_num [dealReasons, ltLowest]
  rw [h]
  decide

/-- C9 (amended): the evaluator produces "new historical low" exactly
when the price is below the historical lowest under the convention that
the undefined ("no data", `float('inf')`) lowest exceeds every price; in
particular with an empty history rule 2 fires for every price rather
than for none. -/
theorem claim_C9_new_low_rule :
    ∀ (price threshold : ℚ) (lowest : Option ℚ),
      (Reason.newHistoricalLow ∈ dealReasons price threshold lowest ↔
        ltLowest price lowest = true) := by
  intro p t low
  unfold dealReasons
  cases low with
  | none =>
    by_cases h1 : p ≤ t <;> simp [h1, ltLowest]
  | some l =>
    by_cases h1 : p ≤ t <;> by_cases h2 : p < l <;>
      by_cases h3 : p < l * (9 / 10) <;>
        simp [h1, h2, h3, ltLowest]

/-- C5: the normalizer strips the currency markers and thousands
separators, returns the value of the first numeric token of the cleaned
text, and returns it even when it lies outside the plausibility range
[5000, 15000] (the out-of-range branch still returns the price):
`extract_price_from_text "₹8,999.00" = 8999` and
`extract_price_from_text "₹499" = 499` with 499 below the range. -/
theorem claim_C5_normalizer :
    extract_price_from_text "₹8,999.00" = some 8999 ∧
    extract_price_from_text "₹499" = some 499 ∧ (499 : ℚ) < 5000 ∧
    ∀ t : String, t ≠ "" →
      extract_price_from_text t =
        (firstToken (cleanText t.data)).map tokenVal := by
  refine ⟨extract_price_rupee8999, extract_price_rupee499, by norm_num, ?_⟩
  intro t ht
  unfold extract_price_from_text
  rw [if_neg ht]
  cases h : firstToken (cleanText t.data) <;> simp [h]

/-- C5 witness: the general conjunct of `claim_C5_normalizer` applied at
the concrete input "₹499". -/
theorem claim_C5_witness :
    extract_price_from_text "₹499" =
      (firstToken (cleanText "₹499".data)).map tokenVal :=
  claim_C5_normalizer.2.2.2 "₹499" (by decide)

/-- C6 counterexample: the two claimed failure kinds are not
distinguishable results — the function returns the same value, `None`,
for the blank input and for "Free shipping". -/
theorem claim_C6_counterexample :
    extract_price_from_text "" = none ∧
    extract_price_from_text "Free shipping" = none ∧
    extract_price_from_text "" = extract_price_from_text "Free shipping" := by
  have h1 : extract_price_from_text "" = none := rfl
  have h2 : extract_price_from_text "Free shipping" = none :=
    extract_eq_none_of (by decide) (by decide)
  exact ⟨h1, h2, h1.trans h2.symm⟩

/-- C6 (amended): the normalizer signals failure with the single value
`None` both when the input is blank and when a non-blank input's cleaned
text contains no numeric token — exactly then — and the two failure
kinds are logged differently but are identical as returned results. -/
theorem claim_C6_failure_characterization :
    ∀ t : String,
      (extract_price_from_text t = none ↔
        t = "" ∨ firstToken (cleanText t.data) = none) := by
  intro t
  by_cases ht : t = ""
  · subst ht
    simp [extract_price_from_text]
  · unfold extract_price_from_text
    rw [if_neg ht]
    cases h : firstToken (cleanText t.data) <;> simp [h, ht]

/-- C3 counterexample: with a single configured site whose fetch yields
nothing, the returned mapping is empty — it has no entry (no recorded
miss) for that site, so the mapping does not cover all configured
sites. -/
theorem claim_C3_counterexample :
    get_all_current_prices [("Amazon India", none)] = [] ∧
    ¬ ∃ q : ℚ, ("Amazon India", q) ∈
      get_all_current_prices [("Amazon India", none)] := by
  have h : get_all_current_prices [("Amazon India", none)] = [] := by
    rw [get_all_current_prices_eq]
    simp [scrape_price_static]
  refine ⟨h, ?_⟩
  rintro ⟨q, hq⟩
  rw [h] at hq
  cases hq

/-- C3 (amended): the collector's returned mapping contains exactly one
entry per site whose fetch produced text normalizing to a truthy price;
sites that miss are absent from the mapping (reported only on the
console/log), so when every site misses the mapping is empty. -/
theorem claim_C3_collect_successes_only :
    ∀ fetches : List (String × Option String),
      get_all_current_prices fetches =
        fetches.filterMap (fun f =>
          (scrape_price_static f.2).map (fun p => (f.1, p))) :=
  get_all_current_prices_eq

/-- C7: the append computes every record's `is_new_low` flag against the
historical lowest as it stood before any of this session's writes — the
statistics are read once, before the loop, so the whole batch shares one
pre-session baseline — computes `below_threshold` against the supplied
threshold, and appends exactly one record per observation. -/
theorem claim_C7_append_pre_session_baseline :
    ∀ (prior : List LedgerRecord) (now : String)
      (current : List (String × ℚ)) (threshold : ℚ),
      save_price_data_records prior now current threshold =
        prior ++ current.map (fun sp =>
          { timestamp := now, site := sp.1, price := sp.2,
            is_new_low := ltLowest sp.2 (lowestEver (ledgerPrices prior)),
            below_threshold := decide (sp.2 ≤ threshold) }) ∧
      (save_price_data_records prior now current threshold).length =
        prior.length + current.length := by
  intro prior now current threshold
  refine ⟨save_records_eq prior now current threshold, ?_⟩
  rw [save_records_eq]
  simp

/-- C4: `get_historical_data` never surfaces an error: on a store that
is absent, empty, or present with a header missing a required column, it
returns the "no data" sentinel for the lowest price together with an
empty record list.  (The embedding is a total function: the source wraps
the whole body in `try`/`except` and returns the sentinel on every
failure path.) -/
theorem claim_C4_stats_degraded_sentinel :
    ∀ store : Option (List (List String)),
      storeDegraded store = true →
      get_historical_data store = ⟨none, []⟩ := by
  intro store h
  cases store with
  | none => rfl
  | some lines =>
    cases lines with
    | nil => rfl
    | cons header rows =>
      simp only [storeDegraded, Bool.not_eq_true'] at h
      have hc : ¬ (required_columns.all (fun c => header.contains c) = true) := by
        rw [h]
        simp
      simp only [get_historical_data]
      rw [if_neg hc]

/-- C4 witness: a store whose header lacks the `price` column is
degraded and yields the sentinel. -/
theorem claim_C4_witness :
    storeDegraded (some [["timestamp", "site"]]) = true ∧
    get_historical_data (some [["timestamp", "site"]]) = ⟨none, []⟩ :=
  ⟨by decide,
    claim_C4_stats_degraded_sentinel (some [["timestamp", "site"]]) (by decide)⟩

/-- C8 counterexample: appending to a store that exists with an
unrecognizable header (first line "corrupt", which does not contain
"timestamp" and is not the field-name header) leaves that first line in
place and writes no fresh header — the rows are appended after the
corrupt line. -/
theorem claim_C8_counterexample :
    List.head?
        ((save_price_data (some [["corrupt"]]) "t"
          [("Amazon India", 7000)] 7500).getD []) = some ["corrupt"] ∧
    headerRecognizable ["corrupt"] = false ∧
    ["corrupt"] ≠ fieldnames := by
  refine ⟨rfl, by decide, by decide⟩

/-- C8 (amended): on the successful write path the append writes a fresh
header only when the store is absent or empty; when the store exists
non-empty — whether or not its first line is a recognizable header — the
rows are appended after the existing content unchanged and no header is
rewritten (the header-repair block runs only on the error path). -/
theorem claim_C8_append_header_only_when_empty :
    ∀ (first : List String) (rest : List (List String)) (now : String)
      (current : List (String × ℚ)) (threshold : ℚ),
      save_price_data (some (first :: rest)) now current threshold =
        some ((first :: rest) ++ current.map (fun sp =>
          recordRow now sp.1 sp.2
            (ltLowest sp.2
              (get_historical_data (some (first :: rest))).lowest_ever)
            (decide (sp.2 ≤ threshold)))) ∧
      save_price_data none now current threshold =
        some (fieldnames :: current.map (fun sp =>
          recordRow now sp.1 sp.2 (ltLowest sp.2 none)
            (decide (sp.2 ≤ threshold)))) ∧
      save_price_data (some []) now current threshold =
        some (fieldnames :: current.map (fun sp =>
          recordRow now sp.1 sp.2 (ltLowest sp.2 none)
            (decide (sp.2 ≤ threshold)))) := by
  intro first rest now current threshold
  exact ⟨rfl, rfl, rfl⟩

/-- C10: a located text that normalizes to the numeric value 0.0 (such
as "₹0.00") is treated as a miss by the scraper's truthiness check, and
in every run no zero price ever appears in the collector's returned
mapping. -/
theorem claim_C10_zero_price_is_miss :
    extract_price_from_text "₹0.00" = some 0 ∧
    scrape_price_static (some "₹0.00") = none ∧
    get_all_current_prices [("Amazon India", some "₹0.00")] = [] ∧
    ∀ (fetches : List (String × Option String)) (s : String) (q : ℚ),
      (s, q) ∈ get_all_current_prices fetches → q ≠ 0 := by
  have hz : scrape_price_static (some "₹0.00") = none := by
    simp [scrape_price_static, extract_price_rupee0]
  refine ⟨extract_price_rupee0, hz, ?_, ?_⟩
  · rw [get_all_current_prices_eq]
    simp [hz]
  · intro fetches s q hmem
    rw [get_all_current_prices_eq] at hmem
    obtain ⟨f, hf, hf2⟩ := List.mem_filterMap.mp hmem
    cases hsc : scrape_price_static f.2 with
    | none => rw [hsc] at hf2; simp at hf2
    | some p =>
      rw [hsc] at hf2
      simp at hf2
      have hp := scrape_price_ne_zero hsc
      exact hf2.2 ▸ hp

/-- C10 witness: the general conjunct applied at a concrete successful
fetch ("499" normalizes to a truthy 499). -/
theorem claim_C10_witness : (499 : ℚ) ≠ 0 :=
  claim_C10_zero_price_is_miss.2.2.2 [("A", some "499")] "A" 499
    (by
      rw [get_all_current_prices_eq]
      have h : scrape_price_static (some "499") = some 499 := by
        rw [scrape_price_static, extract_price_499]
        norm_num
      simp [h])

/-- C1: in a complete orchestrated session whose persistence succeeds,
the deal evaluation runs only after this session's observations were
appended, so the historical lowest at evaluation time is at most every
session price (the prices themselves are non-negative, being parsed from
digit tokens); consequently the "new historical low" and "significant
drop" reasons never fire in a full session and every alert carries
exactly the "at/below target" reason. -/
theorem claim_C1_evaluation_after_persistence :
    ∀ (prior : List LedgerRecord) (now : String)
      (current : List (String × ℚ)) (threshold : ℚ)
      (alert : String × List Reason) (sp : String × ℚ),
      (∀ x ∈ current, 0 ≤ x.2) →
      sp ∈ current →
      alert ∈ runSession prior now current threshold →
      alert.2 = [Reason.atBelowTarget] ∧
      dealReasons sp.2 threshold
          (lowestEver (ledgerPrices
            (save_price_data_records prior now current threshold))) =
        (if sp.2 ≤ threshold then [Reason.atBelowTarget] else []) := by
  intro prior now current threshold alert sp h0 hsp halert
  have key : ∀ x ∈ current,
      dealReasons x.2 threshold
          (lowestEver (ledgerPrices
            (save_price_data_records prior now current threshold))) =
        (if x.2 ≤ threshold then [Reason.atBelowTarget] else []) := by
    intro x hx
    apply dealReasons_after
    · rw [ledgerPrices_save]
      exact List.mem_append_right _ (List.mem_map.mpr ⟨x, hx, rfl⟩)
    · exact h0 x hx
  refine ⟨?_, key sp hsp⟩
  unfold runSession at halert
  by_cases hc : current = []
  · rw [if_pos hc] at halert
    cases halert
  · rw [if_neg hc, check_for_deals_eq] at halert
    obtain ⟨x, hx, hfx⟩ := List.mem_filterMap.mp halert
    simp only [key x hx] at hfx
    by_cases ht : x.2 ≤ threshold
    · rw [if_pos ht] at hfx
      simp only [if_neg (by simp : ¬([Reason.atBelowTarget] = ([] : List Reason))),
        Option.some_inj] at hfx
      rw [← hfx]
    · rw [if_neg ht] at hfx
      simp at hfx

/-- C1 witness: one full session over an empty prior ledger with one
observation at 7000 and threshold 7500 — the single alert carries only
the target reason, and the evaluated reason list is the target
singleton. -/
theorem claim_C1_witness :
    (("A", [Reason.atBelowTarget]) : String × List Reason).2 =
      [Reason.atBelowTarget] ∧
    dealReasons (7000 : ℚ) 7500
        (lowestEver (ledgerPrices
          (save_price_data_records [] "t" [("A", 7000)] 7500))) =
      (if (7000 : ℚ) ≤ 7500 then [Reason.atBelowTarget] else []) :=
  claim_C1_evaluation_after_persistence [] "t" [("A", 7000)] 7500
    ("A", [Reason.atBelowTarget]) ("A", 7000)
    (by
      rintro x hx
      rw [List.mem_singleton] at hx
      subst hx
      norm_num)
    (List.mem_singleton.mpr rfl)
    (by
      have h : runSession [] "t" [("A", (7000 : ℚ))] 7500 =
          [("A", [Reason.atBelowTarget])] := by
        rw [runSession, if_neg (by simp), check_for_deals_eq, save_records_eq]
        norm_num [ledgerPrices, lowestEver, dealReasons, ltLowest,
          List.filterMap_cons]
      rw [h]
      exact List.mem_singleton.mpr rfl)

end PriceBot
